import Mathlib

/-!
Shallow embedding of the table-synchronization core of the reddit-sheets
program (`rsheets/utils.py`), together with the local-sheet fragment of
`rsheets/rsheets.py` that the claims mention (`show_error`) and the retry
wrapper `safe_request`.

Conventions of the embedding:
* Coordinates recorded in the dirty set are Python ints, modelled as `Int`
  (the source can record negative or transposed values there); `set_row` and
  `add_row` indices are `Nat`, matching the specified precondition
  `0 ≤ index < num_rows` for `set_row`.
* Python `set.add` is modelled by `List.insert` (duplicate-free insertion;
  iteration order is irrelevant to every property proved below, since the
  rectangle computation is a running min/max).
* A raised Python exception is modelled by `Option` (`none` = raised) or by
  `PyResult` when the post-state at the raise matters.
* Values passed to the mutators are already strings; the source's
  `str(element)` conversion is the identity on them.
-/

namespace RSheets

structure ExpandingTable where
  table : List (List String)
  num_cols : Nat
  changed : List (Int × Int)

deriving instance DecidableEq for ExpandingTable

namespace ExpandingTable

/-- `num_rows` property: `len(self.table)`. -/
def num_rows (t : ExpandingTable) : Nat :=
  t.table.length

/-- `clear`: the source sets `self.table = []` and `self.num_cols = 0` first;
the subsequent dirty-marking loop iterates over the now-empty table, so its
body never executes and the dirty set is left untouched. -/
def clear (t : ExpandingTable) : ExpandingTable :=
  { table := [], num_cols := 0, changed := t.changed }

/-- `reset_changed`: empties the dirty set. -/
def reset_changed (t : ExpandingTable) : ExpandingTable :=
  { t with changed := [] }

/-- `extend_columns(new_size)`: every row is extended by
`new_size - num_cols` empty strings, and for each row index and each new
column offset the source adds `(self.num_cols + new_col, row_index)` to the
dirty set — note the first component is the COLUMN and the second the ROW,
exactly as written in the source. `num_cols` is updated after the loop. -/
def extend_columns (t : ExpandingTable) (new_size : Nat) : ExpandingTable :=
  let pad := new_size - t.num_cols
  { table := t.table.map (fun row => row ++ List.replicate pad ""),
    num_cols := new_size,
    changed := (List.range t.table.length).foldl
      (fun ch row_index =>
        (List.range pad).foldl
          (fun ch new_col => ch.insert ((t.num_cols + new_col : Int), (row_index : Int)))
          ch)
      t.changed }

/-- `set_row(index, row)`: widens the whole grid when the new row is longer
than `num_cols`, right-pads the new row when shorter, then overwrites row
`index` and marks every column of that row dirty. Precondition (from the
spec): `0 ≤ index < num_rows`; an out-of-range index raises in Python and is
excluded by hypothesis in the theorems below. -/
def set_row (t : ExpandingTable) (index : Nat) (row : List String) : ExpandingTable :=
  let str_row := row
  let new_num_cols := str_row.length
  let t1 :=
    if new_num_cols > t.num_cols then
      let t' := t.extend_columns new_num_cols
      { t' with table := t'.table.set index str_row }
    else if new_num_cols < t.num_cols then
      { t with table := t.table.set index (str_row ++ List.replicate (t.num_cols - new_num_cols) "") }
    else
      { t with table := t.table.set index str_row }
  let rowLen := (t1.table.getD index []).length
  let newChanged := (List.range rowLen).foldl
    (fun ch c => ch.insert ((index : Int), (c : Int))) t1.changed
  { t1 with changed := newChanged }

/-- `add_row(row)`: appends an empty row, then delegates to `set_row` on the
last index. -/
def add_row (t : ExpandingTable) (row : List String) : ExpandingTable :=
  let t' := { t with table := t.table ++ [[]] }
  t'.set_row (t'.table.length - 1) row

/-- `add_rows(rows)`: `add_row` once per element, in order. -/
def add_rows (t : ExpandingTable) (rows : List (List String)) : ExpandingTable :=
  rows.foldl add_row t

/-- `set_cell(row, col, value)`: overwrites one cell and marks it dirty.
Precondition (from the spec): in-bounds; Python raises otherwise. -/
def set_cell (t : ExpandingTable) (row col : Nat) (value : String) : ExpandingTable :=
  { t with table := t.table.set row ((t.table.getD row []).set col value),
           changed := t.changed.insert ((row : Int), (col : Int)) }

/-- `rebuild(new_table)`: `clear` then `add_rows`. -/
def rebuild (t : ExpandingTable) (new_table : List (List String)) : ExpandingTable :=
  (t.clear).add_rows new_table

/-- `__init__`: `clear()` then `reset_changed()` starting from nothing. -/
def init : ExpandingTable :=
  { table := [], num_cols := 0, changed := [] }

end ExpandingTable

/-- `prepend_quote(value)`: returns the value unchanged when it is empty or
starts with `=`, otherwise prepends a single quote character (`'`, U+0027,
written `\x27` here). -/
def prepend_quote (value : String) : String :=
  if value = "" ∨ value.startsWith "=" then value else "\x27" ++ value

/-- The quote marker `'` used by `prepend_quote`. -/
def quoteChar : Char :=
  Char.ofNat 39

namespace ExpandingTable

/-- `export()`: the full grid with `prepend_quote` applied to every cell.
(`export` is a Lean keyword, hence the guillemets.) -/
def «export» (t : ExpandingTable) : List (List String) :=
  t.table.map (fun row => row.map prepend_quote)

/-- Python list indexing with an `int` index: nonnegative indices address
from the front, negative indices from the back, anything else raises
`IndexError` (modelled as `none`). -/
def pyIndex (len : Nat) (i : Int) : Option Nat :=
  if 0 ≤ i then (if i < (len : Int) then some i.toNat else none)
  else (if 0 ≤ i + (len : Int) then some (i + (len : Int)).toNat else none)

/-- `get_cell(row, col, sheet_format)`: when `row < num_rows and col <
num_cols` (a Python `int` comparison, with no lower-bound guard), the cell is
read with Python indexing — so negative arguments pass the guard and address
from the back, possibly raising; otherwise the empty string is returned. -/
def get_cell (t : ExpandingTable) (row col : Int) (sheet_format : Bool) : Option String :=
  if row < (num_rows t : Int) ∧ col < (t.num_cols : Int) then
    match pyIndex t.table.length row with
    | none => none
    | some r =>
      match pyIndex (t.table.getD r []).length col with
      | none => none
      | some c =>
        let v := (t.table.getD r []).getD c ""
        some (if sheet_format then prepend_quote v else v)
  else some ""

/-- One iteration of the `get_changed_rect` loop: the first cell initialises
all four bounds; later cells update the running min/max with the source's
`if`/`elif` chains. -/
def rect_step (acc : Option ((Int × Int) × (Int × Int))) (cell : Int × Int) :
    Option ((Int × Int) × (Int × Int)) :=
  match acc with
  | none => some ((cell.1, cell.1), (cell.2, cell.2))
  | some ((minR, maxR), (minC, maxC)) =>
    let rowB := if cell.1 < minR then (cell.1, maxR)
      else if cell.1 > maxR then (minR, cell.1) else (minR, maxR)
    let colB := if cell.2 < minC then (cell.2, maxC)
      else if cell.2 > maxC then (minC, cell.2) else (minC, maxC)
    some (rowB, colB)

/-- `get_changed_rect()`: `None` when the dirty set is empty, else
`((min_row, max_row), (min_col, max_col))` computed by the running-min/max
loop over the dirty set. -/
def get_changed_rect (t : ExpandingTable) : Option ((Int × Int) × (Int × Int)) :=
  t.changed.foldl rect_step none

end ExpandingTable

/-- Outcome of a Python call that may raise, keeping the receiver's state at
the moment of the raise. -/
inductive PyResult (σ : Type)
  | ok (s : σ)
  | raised (s : σ)

deriving instance DecidableEq for PyResult

/-- Models Python iteration over an `int` (`for x in n` where `n : int`):
always raises `TypeError`. -/
def pyIterInt (_n : Int) : Except Unit (List Int) :=
  Except.error ()

namespace ExpandingTable

/-- Source method `initialize(num_rows, num_cols)` (the source name is a
Lean keyword, hence the suffix): calls `clear()`, then evaluates the
comprehension whose outer generator iterates over the int `num_rows` (and
whose inner generator would iterate over the int `num_cols`); iterating an
int raises `TypeError`, so the receiver is left in the cleared state. -/
def initializeTable (t : ExpandingTable) (numRows numCols : Int) : PyResult ExpandingTable :=
  let t' := t.clear
  match pyIterInt numRows with
  | Except.error _ => PyResult.raised t'
  | Except.ok rs =>
    match pyIterInt numCols with
    | Except.error _ => PyResult.raised t'
    | Except.ok cs => PyResult.ok { t' with table := rs.map (fun _ => cs.map (fun _ => "")) }

/-- `set_cell` as called with Python `int` indices: resolves each index with
Python semantics, raising (state unchanged) when out of range, and records
the RAW `(row, col)` argument pair in the dirty set on success. -/
def set_cell_int (t : ExpandingTable) (row col : Int) (value : String) : PyResult ExpandingTable :=
  match pyIndex t.table.length row with
  | none => PyResult.raised t
  | some r =>
    match pyIndex (t.table.getD r []).length col with
    | none => PyResult.raised t
    | some c =>
      PyResult.ok { t with table := t.table.set r ((t.table.getD r []).set c value),
                           changed := t.changed.insert (row, col) }

end ExpandingTable

/-- The local-sheet effect of `RedditSheets.show_error(row, col, error,
clear_sheet)`: when `clear_sheet` it calls `local_sheet.initialize(row + 1,
col + 1)` (which raises, propagating), then `set_cell(row, col, error)`,
then `commit()` (a remote write — unreachable in the `clear_sheet` path and
out of scope here, so the state reaching it is returned as `ok`). -/
def show_error (t : ExpandingTable) (row col : Int) (error : String)
    (clear_sheet : Bool) : PyResult ExpandingTable :=
  let step1 := if clear_sheet then ExpandingTable.initializeTable t (row + 1) (col + 1)
    else PyResult.ok t
  match step1 with
  | PyResult.raised s => PyResult.raised s
  | PyResult.ok s =>
    match ExpandingTable.set_cell_int s row col error with
    | PyResult.raised s' => PyResult.raised s'
    | PyResult.ok s' => PyResult.ok s'

/-- The remote store's API error (`gspread.exceptions.APIError`). -/
structure APIError where
  msg : String

/-- `safe_request(func, *args)`: tries the call; on `APIError` sleeps for the
fixed cooldown and tries exactly once more; on a second `APIError` logs and
falls through, returning `None`. `f n` is the outcome of the `(n+1)`-th
invocation of `func(*args)`. -/
def safe_request {α : Type} (f : Nat → Except APIError α) : Option α :=
  match f 0 with
  | Except.ok a => some a
  | Except.error _ =>
    match f 1 with
    | Except.ok a => some a
    | Except.error _ => none

/-- Mutations considered by the width/rectangularity claims. -/
inductive Op
  | set_row (index : Nat) (values : List String)
  | add_row (values : List String)

deriving instance DecidableEq for Op

/-- The length of the values sequence an operation passes. -/
def opLen : Op → Nat
  | Op.set_row _ vs => vs.length
  | Op.add_row vs => vs.length

/-- Apply one operation to a table. -/
def applyOp (t : ExpandingTable) : Op → ExpandingTable
  | Op.set_row i vs => t.set_row i vs
  | Op.add_row vs => t.add_row vs

/-- Run a sequence of operations left to right. -/
def runOps (t : ExpandingTable) (ops : List Op) : ExpandingTable :=
  ops.foldl applyOp t

/-- An operation is legal on a state when any `set_row` index is in range
(the spec's precondition; Python raises otherwise). -/
def okOp (t : ExpandingTable) : Op → Bool
  | Op.set_row index _ => decide (index < t.table.length)
  | Op.add_row _ => true

/-- A whole sequence is legal when each operation is legal in the state it
is applied to. -/
def wfOps : ExpandingTable → List Op → Bool
  | _, [] => true
  | t, op :: rest => okOp t op && wfOps (applyOp t op) rest

/-- Maximum values-length passed by a sequence, starting from `a`. -/
def maxLenFrom (a : Nat) (ops : List Op) : Nat :=
  ops.foldl (fun acc op => max acc (opLen op)) a

/-- A concrete 3-row, 1-column table (rows `a`, `b`, `c`) with the dirty set
freshly reset — the state right before the widening counterexample. -/
def grid3x1 : ExpandingTable :=
  (((ExpandingTable.init.add_row ["a"]).add_row ["b"]).add_row ["c"]).reset_changed

/-- `grid3x1` after `set_row(0, ["x", "y"])`, which widens the grid to two
columns and backfills rows 1 and 2. -/
def grid3x1W : ExpandingTable :=
  grid3x1.set_row 0 ["x", "y"]

/-- A concrete 1-row, 1-column table holding `a`, dirty set reset. -/
def grid1x1 : ExpandingTable :=
  (ExpandingTable.init.add_row ["a"]).reset_changed

end RSheets

/-! ## Theorems -/

namespace RSheets

open ExpandingTable

/-- C7: starting from a freshly constructed table, after `add_row(["a","b"])`
then `add_row(["c"])`, row 1 equals `["c", ""]`, `num_cols = 2`, and the
dirty set is exactly `{(0,0), (0,1), (1,0), (1,1)}`. -/
theorem scenario_a_two_adds :
    ((ExpandingTable.init.add_row ["a", "b"]).add_row ["c"]).table.getD 1 [] = ["c", ""] ∧
    ((ExpandingTable.init.add_row ["a", "b"]).add_row ["c"]).num_cols = 2 ∧
    ((ExpandingTable.init.add_row ["a", "b"]).add_row ["c"]).changed.toFinset =
      ({((0 : Int), (0 : Int)), (0, 1), (1, 0), (1, 1)} : Finset (Int × Int)) := by
  decide

/-- C1: the changed rectangle is not sound for actually-mutated coordinates.
Widening `grid3x1` (3 rows, 1 column) via `set_row(0, ["x","y"])` creates the
cell `(2, 1)` (row 2 gains a backfilled column), yet `get_changed_rect`
returns `((0, 1), (0, 2))`, whose row range `[0, 1]` excludes row 2 — because
`extend_columns` records the transposed pairs `(col, row)` in the dirty set. -/
theorem dirty_rect_misses_mutated_cell :
    (grid3x1.table.getD 2 [])[1]? = none ∧
    (grid3x1W.table.getD 2 [])[1]? = some "" ∧
    grid3x1W.get_changed_rect = some ((0, 1), (0, 2)) := by
  decide

/-- C2: the dirty-set validity invariant fails. After widening `grid3x1` via
`set_row(0, ["x","y"])`, the dirty set contains `(1, 2)` although the grid
has only 2 columns, and the newly created cell `(2, 1)` is NOT marked dirty —
`extend_columns` adds `(self.num_cols + new_col, row_index)`, i.e. the
transposed `(col, row)` pair, for each backfilled cell. -/
theorem dirty_mark_transposed :
    ((1 : Int), (2 : Int)) ∈ grid3x1W.changed ∧
    grid3x1W.num_cols = 2 ∧
    num_rows grid3x1W = 3 ∧
    ((2 : Int), (1 : Int)) ∉ grid3x1W.changed ∧
    (grid3x1.table.getD 2 [])[1]? = none ∧
    (grid3x1W.table.getD 2 [])[1]? = some "" := by
  decide

/-- C5 (counterexample): `clear()` on a non-empty grid does NOT mark the
vacated region dirty. `grid1x1` holds `"a"` at `(0, 0)` with an empty dirty
set; after `clear()` the dirty set is still empty, so the previously occupied
coordinate `(0, 0)` is not in it. The source empties `self.table` before its
dirty-marking loop, so the loop body never runs. -/
theorem clear_marks_nothing_dirty_cex :
    (grid1x1.table.getD 0 [])[0]? = some "a" ∧
    grid1x1.changed = [] ∧
    (grid1x1.clear).changed = [] ∧
    ((0 : Int), (0 : Int)) ∉ (grid1x1.clear).changed := by
  decide

/-- C5 (amended): `clear()` leaves the dirty set exactly as it was — it marks
no vacated coordinate and removes none, whether or not the grid was empty. -/
theorem clear_preserves_changed_exactly (t : ExpandingTable) :
    (t.clear).changed = t.changed :=
  rfl

/-- C8 (counterexample): `get_cell` is not tolerant for every out-of-bounds
coordinate. On the 1×1 table `grid1x1`, the out-of-bounds read
`get_cell(-1, -1)` passes the `row < num_rows and col < num_cols` guard and
returns the stored `"a"` via Python negative indexing, and `get_cell(-2, 0)`
raises `IndexError` (modelled as `none`) instead of returning `""`. -/
theorem get_cell_negative_index_cex :
    grid1x1.get_cell (-1) (-1) false = some "a" ∧
    grid1x1.get_cell (-2) 0 false = none ∧
    ("a" : String) ≠ "" := by
  decide

/-- C8 (amended): for every NONNEGATIVE coordinate outside the current
bounds (`r ≥ num_rows` or `c ≥ num_cols`), `get_cell` returns the empty
string without raising. -/
theorem get_cell_nonneg_oob (t : ExpandingTable) (row col : Int)
    (h0 : 0 ≤ row) (h1 : 0 ≤ col)
    (h : (num_rows t : Int) ≤ row ∨ (t.num_cols : Int) ≤ col) :
    t.get_cell row col false = some "" := by
  unfold ExpandingTable.get_cell
  rw [if_neg]
  rintro ⟨hr, hc⟩
  omega

/-- Witness for C8's amended theorem at the concrete input `(5, 5)` on the
1×1 table `grid1x1`. -/
theorem get_cell_nonneg_oob_witness :
    grid1x1.get_cell 5 5 false = some "" :=
  get_cell_nonneg_oob grid1x1 5 5 (by decide) (by decide) (Or.inl (by decide))

/-- C9: for all `num_rows ≥ 1` and `num_cols ≥ 1`, `initialize` raises
`TypeError` (the comprehension iterates over the ints themselves) after
`clear()` has already emptied the grid; consequently `show_error` with
`clear_sheet=True` always propagates that exception and never completes. -/
theorem initialize_always_raises (t : ExpandingTable) (nr nc : Int)
    (h1 : 1 ≤ nr) (h2 : 1 ≤ nc) :
    ExpandingTable.initializeTable t nr nc = PyResult.raised t.clear ∧
    (t.clear).table = [] ∧
    ∀ (row col : Int) (err : String),
      show_error t row col err true = PyResult.raised t.clear := by
  exact ⟨rfl, rfl, fun _ _ _ => rfl⟩

/-- Witness for C9 at `num_rows = num_cols = 1` on the fresh table. -/
theorem initialize_always_raises_witness :
    ExpandingTable.initializeTable ExpandingTable.init 1 1 =
      PyResult.raised ExpandingTable.init.clear ∧
    show_error ExpandingTable.init 0 1 "Unknown command" true =
      PyResult.raised ExpandingTable.init.clear :=
  ⟨(initialize_always_raises ExpandingTable.init 1 1 (by decide) (by decide)).1,
   (initialize_always_raises ExpandingTable.init 1 1 (by decide) (by decide)).2.2
     0 1 "Unknown command"⟩

/-- Appending any string to the one-character quote string prepends exactly
that one character. -/
theorem quote_append (v : String) : "\x27" ++ v = String.mk (quoteChar :: v.data) := by
  cases v with
  | mk data => rfl

/-- C4: `export()` yields each cell value unchanged when it is empty or
begins with `=`, and otherwise yields it with exactly one leading
quote-marker character prepended; the grid itself is untouched (`export`
is a pure function of the table in this embedding). -/
theorem export_escaping_policy (t : ExpandingTable) (r c : Nat) (v : String)
    (h : (t.table.getD r [])[c]? = some v) :
    ((ExpandingTable.«export» t).getD r [])[c]? =
      some (if v = "" ∨ v.startsWith "=" then v else String.mk (quoteChar :: v.data)) := by
  have hr : r < t.table.length := by
    by_contra hr
    push_neg at hr
    rw [List.getD_eq_getElem?_getD, List.getElem?_eq_none hr] at h
    exact absurd h (by simp)
  obtain ⟨row, hrow⟩ : ∃ row, t.table[r]? = some row :=
    ⟨t.table.get ⟨r, hr⟩, List.getElem?_eq_getElem hr⟩
  rw [List.getD_eq_getElem?_getD, hrow, Option.getD_some] at h
  unfold ExpandingTable.«export»
  rw [List.getD_eq_getElem?_getD, List.getElem?_map, hrow, Option.map_some',
    Option.getD_some, List.getElem?_map, h, Option.map_some']
  unfold prepend_quote
  split
  · rfl
  · rw [quote_append]

/-- Witness for C4 on a one-cell grid holding `"5"` (a value that must be
escaped). -/
theorem export_escaping_policy_witness :
    ((ExpandingTable.«export» (ExpandingTable.init.add_row ["5"])).getD 0 [])[0]? =
      some (if "5" = "" ∨ "5".startsWith "=" then "5"
        else String.mk (quoteChar :: "5".data)) :=
  export_escaping_policy (ExpandingTable.init.add_row ["5"]) 0 0 "5" (by decide)

/-- C10: `safe_request` returns the first call's result when it succeeds;
after a first `APIError` it calls once more and returns that result on
success; after two `APIError`s it returns `None` without propagating; and its
result depends on at most the first two call outcomes. -/
theorem safe_request_behavior {α : Type} (f : Nat → Except APIError α) :
    (∀ a, f 0 = Except.ok a → safe_request f = some a) ∧
    (∀ e a, f 0 = Except.error e → f 1 = Except.ok a → safe_request f = some a) ∧
    (∀ e e', f 0 = Except.error e → f 1 = Except.error e' → safe_request f = none) ∧
    (∀ g : Nat → Except APIError α, f 0 = g 0 → f 1 = g 1 →
      safe_request f = safe_request g) := by
  refine ⟨fun a h => ?_, fun e a h h' => ?_, fun e e' h h' => ?_, fun g h h' => ?_⟩
  · unfold safe_request; rw [h]
  · unfold safe_request; rw [h, h']
  · unfold safe_request; rw [h, h']
  · unfold safe_request; rw [h, h']

/-- Shape of `set_row`: the new width is the max of the old width and the
values length, the row count is unchanged, and the table is the (possibly
widened) table with row `index` overwritten by the padded values. -/
theorem set_row_shape (t : ExpandingTable) (index : Nat) (vs : List String) :
    (t.set_row index vs).num_cols = max t.num_cols vs.length ∧
    (t.set_row index vs).table.length = t.table.length ∧
    (t.set_row index vs).table =
      (if t.num_cols < vs.length then
        t.table.map (fun row => row ++ List.replicate (vs.length - t.num_cols) "")
      else t.table).set index (vs ++ List.replicate (t.num_cols - vs.length) "") := by
  simp only [ExpandingTable.set_row, ExpandingTable.extend_columns]
  refine ⟨?_, ?_, ?_⟩
  · split
    · next h => show vs.length = max t.num_cols vs.length; omega
    · split
      · next h => show t.num_cols = max t.num_cols vs.length; omega
      · next h1 h2 => show t.num_cols = max t.num_cols vs.length; omega
  · split
    · show ((t.table.map _).set index vs).length = t.table.length
      rw [List.length_set, List.length_map]
    · split
      · exact List.length_set ..
      · exact List.length_set ..
  · split
    · next h =>
      have hz : t.num_cols - vs.length = 0 := by omega
      rw [hz, List.replicate_zero, List.append_nil]
    · next h =>
      split
      · next h2 => rfl
      · next h2 =>
        have hz : t.num_cols - vs.length = 0 := by omega
        rw [hz, List.replicate_zero, List.append_nil]

/-- Rectangularity is preserved by `set_row` when every row other than the
target has the current width (the target row may be the freshly appended
empty row of `add_row`). -/
theorem set_row_spec (t : ExpandingTable) (index : Nat) (vs : List String)
    (hidx : index < t.table.length)
    (hrows : ∀ (i : Nat), i ≠ index → ∀ (row : List String), t.table[i]? = some row → row.length = t.num_cols) :
    (t.set_row index vs).table.length = t.table.length ∧
    (t.set_row index vs).num_cols = max t.num_cols vs.length ∧
    ∀ (i : Nat) (row : List String), (t.set_row index vs).table[i]? = some row →
      row.length = (t.set_row index vs).num_cols := by
  obtain ⟨hcols, hlen, htab⟩ := set_row_shape t index vs
  refine ⟨hlen, hcols, ?_⟩
  intro i row hrow
  rw [hcols]
  rw [htab] at hrow
  by_cases hi : i = index
  · subst hi
    rw [List.getElem?_set_self] at hrow
    · rw [Option.some_inj] at hrow
      rw [← hrow, List.length_append, List.length_replicate]
      omega
    · split
      · rw [List.length_map]; exact hidx
      · exact hidx
  · rw [List.getElem?_set_ne (fun h => hi h.symm)] at hrow
    revert hrow
    split
    · next hcase =>
      intro hrow
      rw [List.getElem?_map] at hrow
      cases horig : t.table[i]? with
      | none => rw [horig] at hrow; exact absurd hrow (by simp)
      | some orig =>
        rw [horig] at hrow
        rw [Option.map_some', Option.some_inj] at hrow
        have hlen' := hrows i hi orig horig
        rw [← hrow, List.length_append, List.length_replicate]
        omega
    · next hcase =>
      intro hrow
      have := hrows i hi row hrow
      omega

/-- Rectangularity and width bookkeeping for `add_row`. -/
theorem add_row_spec (t : ExpandingTable) (vs : List String)
    (hinv : ∀ (i : Nat) (row : List String), t.table[i]? = some row → row.length = t.num_cols) :
    (t.add_row vs).table.length = t.table.length + 1 ∧
    (t.add_row vs).num_cols = max t.num_cols vs.length ∧
    ∀ (i : Nat) (row : List String), (t.add_row vs).table[i]? = some row →
      row.length = (t.add_row vs).num_cols := by
  have key : t.add_row vs =
      ExpandingTable.set_row { t with table := t.table ++ [[]] } t.table.length vs := by
    unfold ExpandingTable.add_row
    simp
  have hidx : t.table.length < ({ t with table := t.table ++ [[]] } : ExpandingTable).table.length := by
    simp
  have hrows : ∀ (i : Nat), i ≠ t.table.length → ∀ (row : List String),
      (({ t with table := t.table ++ [[]] } : ExpandingTable).table)[i]? = some row →
      row.length = ({ t with table := t.table ++ [[]] } : ExpandingTable).num_cols := by
    intro i hi row h
    rcases Nat.lt_or_ge i t.table.length with hlt | hge
    · rw [show (({ t with table := t.table ++ [[]] } : ExpandingTable).table) = t.table ++ [[]] from rfl,
        List.getElem?_append_left hlt] at h
      exact hinv i row h
    · have : (t.table ++ [[]]).length ≤ i := by
        rw [List.length_append]
        simp only [List.length_singleton]
        omega
      rw [show (({ t with table := t.table ++ [[]] } : ExpandingTable).table) = t.table ++ [[]] from rfl,
        List.getElem?_eq_none this] at h
      exact absurd h (by simp)
  obtain ⟨h1, h2, h3⟩ := set_row_spec { t with table := t.table ++ [[]] } t.table.length vs hidx hrows
  rw [key]
  refine ⟨?_, h2, h3⟩
  rw [h1]
  simp

/-- Running a legal sequence preserves rectangularity, and the final width is
the running maximum of the widths passed. -/
theorem runOps_spec : ∀ (ops : List Op) (t : ExpandingTable),
    (∀ (i : Nat) (row : List String), t.table[i]? = some row → row.length = t.num_cols) →
    wfOps t ops = true →
    (∀ (i : Nat) (row : List String), (runOps t ops).table[i]? = some row →
      row.length = (runOps t ops).num_cols) ∧
    (runOps t ops).num_cols = maxLenFrom t.num_cols ops := by
  intro ops
  induction ops with
  | nil => intro t h _; exact ⟨h, rfl⟩
  | cons op rest ih =>
    intro t h hwf
    rw [wfOps, Bool.and_eq_true] at hwf
    obtain ⟨hok, hwf'⟩ := hwf
    have step : (∀ (i : Nat) (row : List String), (applyOp t op).table[i]? = some row →
        row.length = (applyOp t op).num_cols) ∧
        (applyOp t op).num_cols = max t.num_cols (opLen op) := by
      cases op with
      | set_row i vs =>
        have hidx : i < t.table.length := of_decide_eq_true hok
        have hrows : ∀ (j : Nat), j ≠ i → ∀ (row : List String), t.table[j]? = some row →
            row.length = t.num_cols := fun j _ row hj => h j row hj
        obtain ⟨_, h2, h3⟩ := set_row_spec t i vs hidx hrows
        exact ⟨h3, h2⟩
      | add_row vs =>
        obtain ⟨_, h2, h3⟩ := add_row_spec t vs h
        exact ⟨h3, h2⟩
    have main := ih (applyOp t op) step.1 hwf'
    refine ⟨main.1, ?_⟩
    rw [show runOps t (op :: rest) = runOps (applyOp t op) rest from rfl, main.2,
      show maxLenFrom t.num_cols (op :: rest) = maxLenFrom (max t.num_cols (opLen op)) rest from rfl,
      step.2]

/-- Legality of a sequence is inherited by its prefixes. -/
theorem wfOps_take : ∀ (ops : List Op) (k : Nat) (t : ExpandingTable),
    wfOps t ops = true → wfOps t (ops.take k) = true
  | [], k, _, _ => by rw [List.take_nil]; rfl
  | _ :: _, 0, _, _ => rfl
  | op :: rest, Nat.succ k, t, h => by
    rw [List.take_succ_cons, wfOps, Bool.and_eq_true]
    rw [wfOps, Bool.and_eq_true] at h
    exact ⟨h.1, wfOps_take rest k (applyOp t op) h.2⟩

/-- The running maximum over a longer prefix is at least the one over a
shorter prefix. -/
theorem maxLenFrom_take_le (a : Nat) (ops : List Op) (k : Nat) :
    maxLenFrom a (ops.take k) ≤ maxLenFrom a (ops.take (k + 1)) := by
  rw [List.take_succ]
  unfold maxLenFrom
  rw [List.foldl_append]
  cases ops[k]? with
  | none => rfl
  | some op => exact Nat.le_max_left _ _

/-- C3: for every legal sequence of `set_row`/`add_row` calls starting from
the empty table (as after construction or `clear`), after each call
`num_cols` equals the maximum values-length passed so far, `num_cols` never
decreases, and every row has exactly `num_cols` cells. -/
theorem width_monotone_rectangular (t0 : ExpandingTable) (ops : List Op) (k : Nat)
    (h0 : t0.table = []) (h1 : t0.num_cols = 0) (hwf : wfOps t0 ops = true) :
    (runOps t0 (ops.take k)).num_cols = maxLenFrom 0 (ops.take k) ∧
    (∀ row ∈ (runOps t0 (ops.take k)).table,
      row.length = (runOps t0 (ops.take k)).num_cols) ∧
    (runOps t0 (ops.take k)).num_cols ≤ (runOps t0 (ops.take (k + 1))).num_cols := by
  have hstart : ∀ (i : Nat) (row : List String), t0.table[i]? = some row → row.length = t0.num_cols := by
    intro i row h
    rw [h0] at h
    exact absurd h (by simp)
  have A := runOps_spec (ops.take k) t0 hstart (wfOps_take ops k t0 hwf)
  have B := runOps_spec (ops.take (k + 1)) t0 hstart (wfOps_take ops (k + 1) t0 hwf)
  refine ⟨by rw [A.2, h1], ?_, ?_⟩
  · intro row hrow
    obtain ⟨i, hi⟩ := List.mem_iff_getElem?.mp hrow
    exact A.1 i row hi
  · rw [A.2, B.2, h1]
    exact maxLenFrom_take_le 0 ops k

/-- Witness for C3: the sequence `add_row(["a","b"])`, `set_row(0, ["c"])`
checked after its first call. -/
theorem width_monotone_rectangular_witness :
    (runOps ExpandingTable.init ([Op.add_row ["a", "b"], Op.set_row 0 ["c"]].take 1)).num_cols =
      maxLenFrom 0 ([Op.add_row ["a", "b"], Op.set_row 0 ["c"]].take 1) ∧
    (∀ row ∈ (runOps ExpandingTable.init ([Op.add_row ["a", "b"], Op.set_row 0 ["c"]].take 1)).table,
      row.length =
        (runOps ExpandingTable.init ([Op.add_row ["a", "b"], Op.set_row 0 ["c"]].take 1)).num_cols) ∧
    (runOps ExpandingTable.init ([Op.add_row ["a", "b"], Op.set_row 0 ["c"]].take 1)).num_cols ≤
      (runOps ExpandingTable.init ([Op.add_row ["a", "b"], Op.set_row 0 ["c"]].take 2)).num_cols :=
  width_monotone_rectangular ExpandingTable.init
    [Op.add_row ["a", "b"], Op.set_row 0 ["c"]] 1 rfl rfl (by decide)

/-- A fold whose step function only grows the dirty set preserves
membership. -/
theorem mem_foldl_of_step {β : Type} (step : List (Int × Int) → β → List (Int × Int))
    (hstep : ∀ ch b p, p ∈ ch → p ∈ step ch b) :
    ∀ (l : List β) (ch : List (Int × Int)) (p : Int × Int), p ∈ ch → p ∈ l.foldl step ch
  | [], _, _, hp => hp
  | b :: bs, ch, p, hp =>
    mem_foldl_of_step step hstep bs (step ch b) p (hstep ch b p hp)

/-- `extend_columns` only adds dirty marks. -/
theorem changed_extend_mono (t : ExpandingTable) (n : Nat) :
    ∀ p ∈ t.changed, p ∈ (t.extend_columns n).changed := by
  intro p hp
  simp only [ExpandingTable.extend_columns]
  exact mem_foldl_of_step _
    (fun ch b q hq => mem_foldl_of_step _
      (fun ch2 c2 q2 hq2 => List.mem_insert_iff.mpr (Or.inr hq2)) _ ch q hq)
    _ t.changed p hp

/-- `set_row` only adds dirty marks. -/
theorem changed_set_row_mono (t : ExpandingTable) (i : Nat) (vs : List String) :
    ∀ p ∈ t.changed, p ∈ (t.set_row i vs).changed := by
  intro p hp
  simp only [ExpandingTable.set_row]
  apply mem_foldl_of_step _ (fun ch b q hq => List.mem_insert_iff.mpr (Or.inr hq))
  split
  · exact changed_extend_mono t _ p hp
  · split
    · exact hp
    · exact hp

/-- `add_row` only adds dirty marks. -/
theorem changed_add_row_mono (t : ExpandingTable) (vs : List String) :
    ∀ p ∈ t.changed, p ∈ (t.add_row vs).changed := by
  intro p hp
  exact changed_set_row_mono { t with table := t.table ++ [[]] } _ vs p hp

/-- `add_rows` only adds dirty marks. -/
theorem changed_add_rows_mono :
    ∀ (rows : List (List String)) (t : ExpandingTable), ∀ p ∈ t.changed,
      p ∈ (t.add_rows rows).changed
  | [], _, _, hp => hp
  | r :: rs, t, p, hp =>
    changed_add_rows_mono rs (t.add_row r) p (changed_add_row_mono t r p hp)

/-- C6: `clear()` removes no coordinate from the dirty set, and
`rebuild(new_rows)` — `clear` followed by `add_rows` — preserves every dirty
coordinate recorded before it, including coordinates outside the new grid's
bounds. -/
theorem clear_rebuild_preserve_dirty (t : ExpandingTable) (rows : List (List String)) :
    (∀ p ∈ t.changed, p ∈ (t.clear).changed) ∧
    (∀ p ∈ t.changed, p ∈ (t.rebuild rows).changed) :=
  ⟨fun _ hp => hp, fun p hp => changed_add_rows_mono rows t.clear p hp⟩

/-- Witness for C6: the dirty mark `(2, 0)` (outside the rebuilt 1×1 grid's
row range) survives a `rebuild([["x"]])` of a 3-row table. -/
theorem clear_rebuild_preserve_dirty_witness :
    ((2 : Int), (0 : Int)) ∈
      (((((ExpandingTable.init.add_row ["a"]).add_row ["b"]).add_row ["c"]).clear).changed) ∧
    ((2 : Int), (0 : Int)) ∈
      ((((ExpandingTable.init.add_row ["a"]).add_row ["b"]).add_row ["c"]).rebuild [["x"]]).changed :=
  ⟨(clear_rebuild_preserve_dirty _ [["x"]]).1 _ (by decide),
   (clear_rebuild_preserve_dirty _ [["x"]]).2 _ (by decide)⟩

/-- Witness for C10: a call that fails once with an `APIError` and then
succeeds returns the second result. -/
theorem safe_request_behavior_witness :
    safe_request (fun n => if n = 0 then Except.error ⟨"quota"⟩ else Except.ok 7) =
      some 7 :=
  (safe_request_behavior (fun n => if n = 0 then Except.error ⟨"quota"⟩ else Except.ok 7)).2.1
    ⟨"quota"⟩ 7 rfl rfl

end RSheets
